import Mathlib

/-!
# Flash Transfer — formal model of `full_app.py`

A shallow embedding of the transfer lifecycle code in `full_app.py`
(routes `upload_files`, `get_transfer_info`, `download_transfer`, the
`Transfer` and `File` SQLAlchemy models, and the `PLAN_LIMITS` /
`MAX_CONTENT_LENGTH` configuration), together with theorems checking the
natural-language specification against it.

Modelling conventions:
* Database state (the SQLite tables reached through `db.session`) and the
  blob store (the uploads directory) are a single explicit `DB` value;
  every route is a function from `DB` to `DB × result`.  `db.session.commit()`
  is the point where staged rows enter the `DB` value; an exception before
  the commit (with the `db.session.rollback()` of the `except` branch)
  leaves the metadata lists of the input `DB` unchanged.
* `str(uuid.uuid4())` draws are modelled by a process-wide counter stored in
  the `DB`: the n-th draw returns `uuidStr n`, an injective supply of opaque
  strings containing neither `'_'` nor `'/'` (the two properties of real
  uuid4 strings that the code relies on).
* Timestamps (`datetime.utcnow()`) are `Nat` seconds; the retention window
  `timedelta(days=RETENTION_DAYS)` is `RETENTION_DAYS * 86400` seconds.
* A multipart file part (`werkzeug` `FileStorage`) is a `FilePart`: the
  client-supplied filename and the byte stream (a list of byte values).
  `len(file.read())` and `os.path.getsize` after `file.save` are both the
  length of that stream.
* `file.save(file_path)` can raise an `OSError`; the possibility is an
  explicit `failAt : Option Nat` argument: `some k` means the k-th executed
  `save` call of the request raises.  `none` is the failure-free run.
-/

namespace FlashTransfer

/-- `app.config['MAX_CONTENT_LENGTH'] = 2 * 1024 * 1024 * 1024` (line 22). -/
def MAX_CONTENT_LENGTH : Nat := 2 * 1024 * 1024 * 1024

/-- `app.config['RETENTION_DAYS'] = 10` (line 23). -/
def RETENTION_DAYS : Nat := 10

/-- The retention window of `timedelta(days=RETENTION_DAYS)`, in seconds. -/
def RETENTION_SECONDS : Nat := RETENTION_DAYS * 86400

/-- The `PLAN_LIMITS` dict (lines 55-59); `none` for a key not in the dict. -/
def PLAN_LIMITS : String → Option Nat
  | "free" => some (100 * 1024 * 1024 * 1024)
  | "standard" => some (500 * 1024 * 1024 * 1024)
  | "premium" => some (2 * 1024 * 1024 * 1024 * 1024)
  | _ => none

/-- The quota policy `Admit(planTier, totalBytes)` of spec §4.1, read off the
two guards of `upload_files` (lines 70 and 81): a recognized tier admits
exactly the sizes not exceeding its limit, an unknown tier admits nothing. -/
def Admit (tier : String) (size : Nat) : Bool :=
  match PLAN_LIMITS tier with
  | none => false
  | some limit => size ≤ limit

/-- Models `str(uuid.uuid4())` for the n-th draw of the process-wide UUID
supply: distinct draws are distinct opaque strings, and a uuid4 string
contains neither `'_'` nor `'/'`.  Those are the only properties of the
draws that `full_app.py` relies on; the draw is represented by its index. -/
def uuidStr (n : Nat) : String := String.mk (List.replicate (n + 1) 'u')

/-- The `UPLOAD_FOLDER` directory (`.../uploads`, lines 14 and 21). -/
def UPLOAD_FOLDER : String := "uploads"

/-- Line 99: `filename = f"{file_id}_{original_filename}"` — the storage key
of a blob, built from the fresh per-file uuid draw and the client-supplied
display name. -/
def storage_key (fileId : Nat) (original_filename : String) : String :=
  uuidStr fileId ++ "_" ++ original_filename

/-- Line 100: `file_path = os.path.join(app.config['UPLOAD_FOLDER'], filename)`. -/
def file_path_of (key : String) : String :=
  UPLOAD_FOLDER ++ "/" ++ key

/-- Split a character list at `'/'` separators — the path components that the
operating system resolves one by one when a path such as the result of
`os.path.join` is opened.  (`..` as a component steps to the parent
directory.) -/
def splitSlash : List Char → List (List Char)
  | [] => [[]]
  | c :: cs =>
    match splitSlash cs with
    | [] => [[c]]
    | g :: gs => if c = '/' then [] :: g :: gs else (c :: g) :: gs

/-- The components of a path string. -/
def pathComponents (s : String) : List String :=
  (splitSlash s.data).map String.mk

/-- A row of the `Transfer` table (lines 32-43).  `id` is the index of the
uuid draw that produced the row's primary key.  `sender_email` and
`recipient_emails` are never written by any route and are omitted. -/
structure TransferRec where
  id : Nat
  plan_type : String
  total_size : Nat
  file_count : Nat
  created_at : Nat
  expires_at : Nat
  download_count : Nat
  deriving DecidableEq, Repr

/-- A row of the `File` table (lines 45-52). `id` is the index of the uuid
draw of the row's primary key (the column default of line 46); `filename`
is the storage key. -/
structure FileRec where
  id : Nat
  transfer_id : Nat
  filename : String
  original_filename : String
  file_size : Nat
  file_path : String
  deriving DecidableEq, Repr

/-- One part of the multipart `files` field: client filename and stream. -/
structure FilePart where
  filename : String
  content : List Nat
  deriving DecidableEq, Repr

/-- The persistent state: both metadata tables, the blob store (path ↦
written bytes), and the uuid draw counter. -/
structure DB where
  transfers : List TransferRec
  files : List FileRec
  blobs : List (String × List Nat)
  uuidCounter : Nat
  deriving DecidableEq, Repr

/-- The state of an empty database and empty uploads directory. -/
def DB.empty : DB := ⟨[], [], [], 0⟩

/-- Result of `POST /api/upload` (`upload_files`). -/
inductive UploadResult where
  /-- 400 `{'error': 'Invalid plan type'}` (line 71). -/
  | invalidPlan
  /-- 400 `{'error': f'File size exceeds {plan_type} plan limit'}` (line 82). -/
  | quotaExceeded
  /-- 200 success JSON (lines 120-126): transfer id, per-file
  (id, name, size), expiry. -/
  | ok (transfer_id : Nat) (files : List (Nat × String × Nat)) (expires_at : Nat)
  /-- 500 `{'error': str(e)}` after `db.session.rollback()` (lines 128-130). -/
  | internalError
  deriving DecidableEq, Repr

/-- Outcome of the per-file loop of `upload_files` (lines 95-117): either the
staged `File` rows plus the blobs written and the advanced uuid counter, or —
when a `file.save` raised — just the blobs written before the exception and
the counter as advanced so far. -/
inductive LoopOut where
  | ok (recs : List FileRec) (blobs : List (String × List Nat)) (counter : Nat)
  | failed (blobs : List (String × List Nat)) (counter : Nat)
  deriving DecidableEq, Repr

/-- The uuid draw counter after the per-file loop, whether or not a save
raised. -/
def LoopOut.counter : LoopOut → Nat
  | .ok _ _ c => c
  | .failed _ c => c

/-- Lines 95-116: iterate over `request.files.getlist('files')`; for each part
with a non-empty filename draw `file_id`, build the storage key and path,
`file.save` the blob (which may raise: `failAt = some saveIdx`), and stage a
`File` row whose primary key is a further uuid draw.  `counter` is the uuid
draw counter, `saveIdx` counts the `save` calls already executed. -/
def processParts (tid : Nat) (counter : Nat) (saveIdx : Nat)
    (failAt : Option Nat) : List FilePart → LoopOut
  | [] => .ok [] [] counter
  | p :: rest =>
    if p.filename = "" then
      processParts tid counter saveIdx failAt rest
    else
      let fileId := counter
      let key := storage_key fileId p.filename
      let path := file_path_of key
      if failAt = some saveIdx then
        .failed [] (counter + 1)
      else
        let rec_ : FileRec :=
          { id := counter + 1, transfer_id := tid, filename := key,
            original_filename := p.filename, file_size := p.content.length,
            file_path := path }
        match processParts tid (counter + 2) (saveIdx + 1) failAt rest with
        | .ok recs blobs c => .ok (rec_ :: recs) ((path, p.content) :: blobs) c
        | .failed blobs c => .failed ((path, p.content) :: blobs) c

/-- The sum of `len(file.read())` over the parts (lines 73-79). -/
def totalSize (parts : List FilePart) : Nat :=
  (parts.map (fun p => p.content.length)).sum

/-- `upload_files` (lines 65-130), for a request carrying `plan_type = plan`
and file parts `parts`, at time `now`.  Checks the plan, sums the sizes,
checks the quota, creates the `Transfer` row (its uuid drawn at the
`flush`), runs the per-file loop, and commits; an exception inside the loop
reaches the `except` branch, whose `rollback` discards every staged row —
but not the blobs already written to disk. -/
def upload (db : DB) (plan : String) (parts : List FilePart) (now : Nat)
    (failAt : Option Nat) : DB × UploadResult :=
  match PLAN_LIMITS plan with
  | none => (db, .invalidPlan)
  | some limit =>
    let total := totalSize parts
    if total > limit then
      (db, .quotaExceeded)
    else
      let tid := db.uuidCounter
      let t : TransferRec :=
        { id := tid, plan_type := plan, total_size := total,
          file_count := parts.length, created_at := now,
          expires_at := now + RETENTION_SECONDS, download_count := 0 }
      match processParts tid (db.uuidCounter + 1) 0 failAt parts with
      | .failed blobs c =>
        ({ db with blobs := db.blobs ++ blobs, uuidCounter := c },
         .internalError)
      | .ok recs blobs c =>
        ({ transfers := db.transfers ++ [t], files := db.files ++ recs,
           blobs := db.blobs ++ blobs, uuidCounter := c },
         .ok tid (recs.map fun r => (r.id, r.original_filename, r.file_size))
           t.expires_at)

/-- The read-only snapshot returned by `GET /api/transfer/<id>` (lines
147-156). -/
structure TransferView where
  transfer_id : Nat
  plan_type : String
  total_size : Nat
  file_count : Nat
  created_at : Nat
  expires_at : Nat
  download_count : Nat
  files : List (Nat × String × Nat)
  deriving DecidableEq, Repr

/-- Result of `GET /api/transfer/<id>`. -/
inductive InfoResult where
  /-- 404 `{'error': 'Transfer not found'}` (line 136). -/
  | notFound
  /-- 410 `{'error': 'Transfer has expired'}` (line 139). -/
  | expired
  /-- 200 snapshot (lines 147-156). -/
  | ok (view : TransferView)
  deriving DecidableEq, Repr

/-- `get_transfer_info` (lines 132-156): look the transfer up, check logical
expiry, and return the snapshot.  It never writes: its type has no `DB`
output. -/
def get_transfer_info (db : DB) (tid : Nat) (now : Nat) : InfoResult :=
  match db.transfers.find? (fun t => t.id = tid) with
  | none => .notFound
  | some t =>
    if now > t.expires_at then .expired
    else
      .ok { transfer_id := t.id, plan_type := t.plan_type,
            total_size := t.total_size, file_count := t.file_count,
            created_at := t.created_at, expires_at := t.expires_at,
            download_count := t.download_count,
            files := (db.files.filter (fun f => f.transfer_id = t.id)).map
              (fun f => (f.id, f.original_filename, f.file_size)) }

/-- Result of `GET /download/<id>`. -/
inductive DownloadResult where
  /-- 404 `{'error': 'Transfer not found'}` (line 162). -/
  | notFound
  /-- 410 `{'error': 'Transfer has expired'}` (line 165). -/
  | expired
  /-- 404 `{'error': 'No files found'}` (line 178). -/
  | noFiles
  /-- 200 `send_file(file_path, download_name=original_filename)` (lines
  172-176). -/
  | ok (file_path : String) (download_name : String)
  deriving DecidableEq, Repr

/-- The in-place update `transfer.download_count += 1` restricted to the row
with key `tid`. -/
def bumpIf (tid : Nat) (t : TransferRec) : TransferRec :=
  if t.id = tid then { t with download_count := t.download_count + 1 } else t

/-- `download_transfer` (lines 158-178): look up, check logical expiry, then
increment `download_count` and commit — and only after that committed
increment check whether the transfer has any files. -/
def download_transfer (db : DB) (tid : Nat) (now : Nat) : DB × DownloadResult :=
  match db.transfers.find? (fun t => t.id = tid) with
  | none => (db, .notFound)
  | some t =>
    if now > t.expires_at then (db, .expired)
    else
      let db' := { db with transfers := db.transfers.map (bumpIf tid) }
      match db.files.filter (fun f => f.transfer_id = tid) with
      | [] => (db', .noFiles)
      | f :: _ => (db', .ok f.file_path f.original_filename)

/-- The read half of the increment of lines 160-167: `Transfer.query.get`
loads the row, and the Python expression `transfer.download_count` reads the
loaded value. -/
def dlRead (db : DB) (tid : Nat) : Option Nat :=
  (db.transfers.find? (fun t => t.id = tid)).map (fun t => t.download_count)

/-- The write half of lines 167-168: `transfer.download_count += 1` stores
`snapshot + 1` into the loaded object and `db.session.commit()` writes that
value back, whatever the row holds by then. -/
def dlWrite (db : DB) (tid : Nat) (snapshot : Nat) : DB :=
  let write := fun (t : TransferRec) =>
    if t.id = tid then { t with download_count := snapshot + 1 } else t
  { db with transfers := db.transfers.map write }

/-- `n` back-to-back (fully sequential) `download_transfer` calls. -/
def iterDownload (db : DB) (tid : Nat) (now : Nat) : Nat → DB
  | 0 => db
  | n + 1 => iterDownload (download_transfer db tid now).1 tid now n

/-- Storage-key well-formedness of a state: every `File` row's storage key
embeds a uuid draw older than the current counter, and the storage keys of
all `File` rows in the system are pairwise distinct. -/
def KeyInv (db : DB) : Prop :=
  (∀ f ∈ db.files, ∃ fid name, fid < db.uuidCounter ∧
    f.filename = storage_key fid name) ∧
  (db.files.map (fun f => f.filename)).Nodup

/-! ### Supporting lemmas -/

theorem uuidStr_inj {a b : Nat} (h : uuidStr a = uuidStr b) : a = b := by
  rw [String.ext_iff] at h
  simp only [uuidStr] at h
  have := List.replicate_left_inj.mp h
  omega

theorem data_storage_key (fid : Nat) (name : String) :
    (storage_key fid name).data = (uuidStr fid).data ++ '_' :: name.data := by
  simp only [storage_key, String.data_append]
  rw [List.append_assoc]
  rfl

theorem takeWhile_uuid_head (a : Nat) (s : List Char) :
    ((uuidStr a).data ++ '_' :: s).takeWhile (fun c => c ≠ '_') =
      (uuidStr a).data := by
  rw [List.takeWhile_append]
  simp [uuidStr, List.takeWhile_replicate, List.takeWhile_cons]

theorem storage_key_inj {a b : Nat} {na nb : String}
    (h : storage_key a na = storage_key b nb) : a = b := by
  have hd := congrArg String.data h
  rw [data_storage_key, data_storage_key] at hd
  have ht := congrArg (List.takeWhile (fun c => c ≠ '_')) hd
  rw [takeWhile_uuid_head, takeWhile_uuid_head] at ht
  exact uuidStr_inj (String.ext ht)

theorem bumpIf_id (tid : Nat) (t : TransferRec) : (bumpIf tid t).id = t.id := by
  unfold bumpIf; split <;> rfl

theorem bumpIf_expires_at (tid : Nat) (t : TransferRec) :
    (bumpIf tid t).expires_at = t.expires_at := by
  unfold bumpIf; split <;> rfl

theorem bumpIf_created_at (tid : Nat) (t : TransferRec) :
    (bumpIf tid t).created_at = t.created_at := by
  unfold bumpIf; split <;> rfl

theorem find?_map_bumpIf (l : List TransferRec) (tid : Nat) :
    (l.map (bumpIf tid)).find? (fun u => u.id = tid) =
      (l.find? (fun u => u.id = tid)).map (bumpIf tid) := by
  rw [List.find?_map]
  have hp : ((fun (u : TransferRec) => decide (u.id = tid)) ∘ bumpIf tid) =
      fun u => decide (u.id = tid) := by
    funext u
    simp [Function.comp, bumpIf_id]
  rw [hp]

/-- When the transfer is present and unexpired, the state effect of
`download_transfer` is exactly the committed `download_count` increment. -/
theorem download_found_state (db : DB) (tid now : Nat) (t : TransferRec)
    (hfind : db.transfers.find? (fun u => u.id = tid) = some t)
    (hexp : ¬ now > t.expires_at) :
    (download_transfer db tid now).1 =
      { db with transfers := db.transfers.map (bumpIf tid) } := by
  unfold download_transfer
  rw [hfind]
  simp only [if_neg hexp]
  split <;> rfl

theorem processParts_counter_le (tid : Nat) :
    ∀ (parts : List FilePart) (c i : Nat) (fa : Option Nat),
      c ≤ (processParts tid c i fa parts).counter := by
  intro parts
  induction parts with
  | nil => intro c i fa; simp [processParts, LoopOut.counter]
  | cons p rest ih =>
    intro c i fa
    unfold processParts
    by_cases hname : p.filename = ""
    · simpa [hname] using ih c i fa
    · simp only [if_neg hname]
      by_cases hfail : fa = some i
      · simp [hfail, LoopOut.counter]
      · simp only [if_neg hfail]
        have h2 := ih (c + 2) (i + 1) fa
        cases hrec : processParts tid (c + 2) (i + 1) fa rest with
        | ok recs blobs c' =>
          rw [hrec] at h2
          simp only [LoopOut.counter] at h2 ⊢
          omega
        | failed blobs c' =>
          rw [hrec] at h2
          simp only [LoopOut.counter] at h2 ⊢
          omega

/-- Structure of the rows staged by a successful per-file loop: every row
belongs to the transfer, its storage key embeds a uuid draw taken during
the loop (so between the starting and the final counter), and the staged
storage keys are pairwise distinct. -/
theorem processParts_ok_spec (tid : Nat) :
    ∀ (parts : List FilePart) (c i : Nat) (fa : Option Nat)
      (recs : List FileRec) (blobs : List (String × List Nat)) (c' : Nat),
      processParts tid c i fa parts = .ok recs blobs c' →
      (∀ r ∈ recs, r.transfer_id = tid ∧
        ∃ fid, c ≤ fid ∧ fid < c' ∧
          r.filename = storage_key fid r.original_filename) ∧
      (recs.map (fun r => r.filename)).Nodup := by
  intro parts
  induction parts with
  | nil =>
    intro c i fa recs blobs c' h
    simp only [processParts, LoopOut.ok.injEq] at h
    obtain ⟨hr, -, -⟩ := h
    subst hr
    simp
  | cons p rest ih =>
    intro c i fa recs blobs c' h
    unfold processParts at h
    by_cases hname : p.filename = ""
    · rw [if_pos hname] at h
      exact ih c i fa recs blobs c' h
    · rw [if_neg hname] at h
      by_cases hfail : fa = some i
      · rw [if_pos hfail] at h
        simp at h
      · rw [if_neg hfail] at h
        simp only at h
        cases hrec : processParts tid (c + 2) (i + 1) fa rest with
        | failed blobs2 c2 => rw [hrec] at h; simp at h
        | ok recs2 blobs2 c2 =>
          rw [hrec] at h
          simp only [LoopOut.ok.injEq] at h
          obtain ⟨hr, -, hc⟩ := h
          subst hr
          subst hc
          have hcle : c + 2 ≤ c2 := by
            have := processParts_counter_le tid rest (c + 2) (i + 1) fa
            rw [hrec] at this
            simpa [LoopOut.counter] using this
          obtain ⟨ih1, ih2⟩ := ih (c + 2) (i + 1) fa recs2 blobs2 c2 hrec
          constructor
          · intro r hr
            rcases List.mem_cons.mp hr with hhead | htail
            · subst hhead
              refine ⟨rfl, c, Nat.le_refl c, by omega, rfl⟩
            · obtain ⟨h1, fid, h2, h3, h4⟩ := ih1 r htail
              exact ⟨h1, fid, by omega, h3, h4⟩
          · simp only [List.map_cons]
            refine List.Nodup.cons ?_ ih2
            intro hmem
            obtain ⟨r, hrmem, hrkey⟩ := List.mem_map.mp hmem
            obtain ⟨-, fid, h2, -, h4⟩ := ih1 r hrmem
            rw [h4] at hrkey
            have := storage_key_inj hrkey
            omega

/-- When every uploaded part carries a non-empty filename, the staged rows'
sizes are exactly the sizes of the uploaded streams, in order. -/
theorem processParts_ok_sizes (tid : Nat) :
    ∀ (parts : List FilePart) (c i : Nat) (fa : Option Nat)
      (recs : List FileRec) (blobs : List (String × List Nat)) (c' : Nat),
      processParts tid c i fa parts = .ok recs blobs c' →
      (∀ p ∈ parts, p.filename ≠ "") →
      recs.map (fun r => r.file_size) = parts.map (fun p => p.content.length) := by
  intro parts
  induction parts with
  | nil =>
    intro c i fa recs blobs c' h _
    simp only [processParts, LoopOut.ok.injEq] at h
    obtain ⟨hr, -, -⟩ := h
    subst hr
    simp
  | cons p rest ih =>
    intro c i fa recs blobs c' h hnames
    have hname : p.filename ≠ "" := hnames p (List.mem_cons_self p rest)
    unfold processParts at h
    rw [if_neg hname] at h
    by_cases hfail : fa = some i
    · rw [if_pos hfail] at h
      simp at h
    · rw [if_neg hfail] at h
      simp only at h
      cases hrec : processParts tid (c + 2) (i + 1) fa rest with
      | failed blobs2 c2 => rw [hrec] at h; simp at h
      | ok recs2 blobs2 c2 =>
        rw [hrec] at h
        simp only [LoopOut.ok.injEq] at h
        obtain ⟨hr, -, -⟩ := h
        subst hr
        have := ih (c + 2) (i + 1) fa recs2 blobs2 c2 hrec
          (fun q hq => hnames q (List.mem_cons_of_mem p hq))
        simp only [List.map_cons, this]

theorem upload_invalidPlan_eq (db : DB) (plan : String) (parts : List FilePart)
    (now : Nat) (fa : Option Nat) (hp : PLAN_LIMITS plan = none) :
    upload db plan parts now fa = (db, .invalidPlan) := by
  unfold upload
  rw [hp]

theorem upload_quota_eq (db : DB) (plan : String) (parts : List FilePart)
    (now : Nat) (fa : Option Nat) (limit : Nat)
    (hp : PLAN_LIMITS plan = some limit) (hq : totalSize parts > limit) :
    upload db plan parts now fa = (db, .quotaExceeded) := by
  unfold upload
  rw [hp]
  simp only
  rw [if_pos hq]

theorem upload_admitted_not_rejected (db : DB) (plan : String)
    (parts : List FilePart) (now : Nat) (fa : Option Nat) (limit : Nat)
    (hp : PLAN_LIMITS plan = some limit) (hq : ¬ totalSize parts > limit) :
    (upload db plan parts now fa).2 ≠ .invalidPlan ∧
    (upload db plan parts now fa).2 ≠ .quotaExceeded := by
  unfold upload
  rw [hp]
  simp only
  rw [if_neg hq]
  cases hpp : processParts db.uuidCounter (db.uuidCounter + 1) 0 fa parts <;>
    simp [hpp]

/-- Shape of a successful upload: the quota admitted the batch, the per-file
loop succeeded, and the commit appended exactly one `Transfer` row and the
staged `File` rows. -/
theorem upload_ok_inv (db : DB) (plan : String) (parts : List FilePart)
    (now : Nat) (fa : Option Nat) (db' : DB) (tid : Nat)
    (fs : List (Nat × String × Nat)) (exp : Nat)
    (h : upload db plan parts now fa = (db', .ok tid fs exp)) :
    ∃ limit recs blobs c',
      PLAN_LIMITS plan = some limit ∧ ¬ totalSize parts > limit ∧
      tid = db.uuidCounter ∧
      processParts db.uuidCounter (db.uuidCounter + 1) 0 fa parts =
        .ok recs blobs c' ∧
      db' = { transfers := db.transfers ++
                [{ id := db.uuidCounter, plan_type := plan,
                   total_size := totalSize parts,
                   file_count := parts.length, created_at := now,
                   expires_at := now + RETENTION_SECONDS,
                   download_count := 0 }],
              files := db.files ++ recs, blobs := db.blobs ++ blobs,
              uuidCounter := c' } ∧
      exp = now + RETENTION_SECONDS ∧
      fs = recs.map (fun r => (r.id, r.original_filename, r.file_size)) := by
  unfold upload at h
  cases hp : PLAN_LIMITS plan with
  | none => rw [hp] at h; simp at h
  | some limit =>
    rw [hp] at h
    simp only at h
    by_cases hq : totalSize parts > limit
    · rw [if_pos hq] at h; simp at h
    · rw [if_neg hq] at h
      cases hpp : processParts db.uuidCounter (db.uuidCounter + 1) 0 fa parts with
      | failed blobs c' => rw [hpp] at h; simp at h
      | ok recs blobs c' =>
        rw [hpp] at h
        simp only [Prod.mk.injEq, UploadResult.ok.injEq] at h
        obtain ⟨hdb, htid, hfs, hexp⟩ := h
        exact ⟨limit, recs, blobs, c', rfl, hq, htid.symm, rfl, hdb.symm,
          hexp.symm, hfs.symm⟩

/-- The 500 branch (`except` + `rollback`) leaves both metadata tables of the
committed state untouched. -/
theorem upload_internalError_state (db : DB) (plan : String)
    (parts : List FilePart) (now : Nat) (fa : Option Nat) (db' : DB)
    (h : upload db plan parts now fa = (db', .internalError)) :
    db'.transfers = db.transfers ∧ db'.files = db.files ∧
    db'.uuidCounter = (processParts db.uuidCounter (db.uuidCounter + 1) 0
      fa parts).counter := by
  unfold upload at h
  cases hp : PLAN_LIMITS plan with
  | none => rw [hp] at h; simp at h
  | some limit =>
    rw [hp] at h
    simp only at h
    by_cases hq : totalSize parts > limit
    · rw [if_pos hq] at h; simp at h
    · rw [if_neg hq] at h
      cases hpp : processParts db.uuidCounter (db.uuidCounter + 1) 0 fa parts with
      | ok recs blobs c' => rw [hpp] at h; simp at h
      | failed blobs c' =>
        rw [hpp] at h
        simp only [Prod.mk.injEq] at h
        obtain ⟨hdb, -⟩ := h
        rw [← hdb]
        exact ⟨rfl, rfl, by simp [LoopOut.counter]⟩

/-- No branch of `upload_files` ever removes an existing `Transfer` row. -/
theorem upload_preserves_transfers (db : DB) (plan : String)
    (parts : List FilePart) (now : Nat) (fa : Option Nat) (tr : TransferRec)
    (ht : tr ∈ db.transfers) :
    tr ∈ (upload db plan parts now fa).1.transfers := by
  cases hp : PLAN_LIMITS plan with
  | none => rw [upload_invalidPlan_eq db plan parts now fa hp]; exact ht
  | some limit =>
    by_cases hq : totalSize parts > limit
    · rw [upload_quota_eq db plan parts now fa limit hp hq]; exact ht
    · unfold upload
      rw [hp]
      simp only
      rw [if_neg hq]
      cases hpp : processParts db.uuidCounter (db.uuidCounter + 1) 0 fa parts with
      | failed blobs c => exact ht
      | ok recs blobs c => exact List.mem_append_left _ ht

/-- No branch of `upload_files` ever removes a blob from the store. -/
theorem upload_preserves_blobs (db : DB) (plan : String)
    (parts : List FilePart) (now : Nat) (fa : Option Nat)
    (b : String × List Nat) (hb : b ∈ db.blobs) :
    b ∈ (upload db plan parts now fa).1.blobs := by
  cases hp : PLAN_LIMITS plan with
  | none => rw [upload_invalidPlan_eq db plan parts now fa hp]; exact hb
  | some limit =>
    by_cases hq : totalSize parts > limit
    · rw [upload_quota_eq db plan parts now fa limit hp hq]; exact hb
    · unfold upload
      rw [hp]
      simp only
      rw [if_neg hq]
      cases hpp : processParts db.uuidCounter (db.uuidCounter + 1) 0 fa parts with
      | failed blobs c => exact List.mem_append_left _ hb
      | ok recs blobs c => exact List.mem_append_left _ hb

theorem PLAN_LIMITS_lower (plan : String) (limit : Nat)
    (hp : PLAN_LIMITS plan = some limit) : MAX_CONTENT_LENGTH ≤ limit := by
  unfold PLAN_LIMITS at hp
  split at hp
  · injection hp with h; subst h; decide
  · injection hp with h; subst h; decide
  · injection hp with h; subst h; decide
  · exact Option.noConfusion hp

/-! ### Claims -/

/-- **C1** If CreateTransfer fails after validation (a `file.save` raises for
the k-th file, making `upload_files` answer 500), the metadata rollback of
the `except` branch leaves the `Transfer` table exactly as it was, and
`get_transfer_info` for the attempted transfer identifier (the uuid draw at
the session `flush`, index `db.uuidCounter`) answers `notFound` at every
time: the metadata commit is the visibility barrier, so no partial transfer
is ever queryable. -/
theorem createTransfer_failure_not_queryable (db : DB) (plan : String)
    (parts : List FilePart) (now k : Nat) (db' : DB) (now' : Nat)
    (hfresh : ∀ t ∈ db.transfers, t.id < db.uuidCounter)
    (h : upload db plan parts now (some k) = (db', .internalError)) :
    db'.transfers = db.transfers ∧
    get_transfer_info db' db.uuidCounter now' = .notFound := by
  obtain ⟨htr, -, -⟩ :=
    upload_internalError_state db plan parts now (some k) db' h
  refine ⟨htr, ?_⟩
  unfold get_transfer_info
  rw [htr]
  have hnone : db.transfers.find? (fun t => t.id = db.uuidCounter) = none := by
    rw [List.find?_eq_none]
    intro t ht
    have := hfresh t ht
    simp only [decide_eq_true_eq]
    omega
  rw [hnone]

/-- Witness for C1 at a concrete run: one file of one byte whose save
raises. -/
theorem createTransfer_failure_not_queryable_witness :
    get_transfer_info (⟨[], [], [], 2⟩ : DB) 0 5 = .notFound :=
  (createTransfer_failure_not_queryable DB.empty "free" [⟨"a", [1]⟩] 0 0
    ⟨[], [], [], 2⟩ 5 (by decide) (by decide)).2

/-- **C3** The quota check rejects exactly when the total size exceeds the
recognized tier's byte limit, an unrecognized tier is always rejected with
the invalid-plan error, and each rejection returns the state untouched — no
metadata row created, no blob written.  The three tier limits are the spec's
100 GiB / 500 GiB / 2 TiB. -/
theorem admit_rejects_exactly (db : DB) (plan : String) (parts : List FilePart)
    (now : Nat) (fa : Option Nat) :
    ((upload db plan parts now fa).2 = .invalidPlan ↔ PLAN_LIMITS plan = none) ∧
    ((upload db plan parts now fa).2 = .quotaExceeded ↔
      ∃ limit, PLAN_LIMITS plan = some limit ∧ totalSize parts > limit) ∧
    (Admit plan (totalSize parts) = false ↔
      (upload db plan parts now fa).2 = .invalidPlan ∨
      (upload db plan parts now fa).2 = .quotaExceeded) ∧
    ((upload db plan parts now fa).2 = .invalidPlan ∨
      (upload db plan parts now fa).2 = .quotaExceeded →
      (upload db plan parts now fa).1 = db) ∧
    PLAN_LIMITS "free" = some (100 * 1024 * 1024 * 1024) ∧
    PLAN_LIMITS "standard" = some (500 * 1024 * 1024 * 1024) ∧
    PLAN_LIMITS "premium" = some (2 * 1024 * 1024 * 1024 * 1024) := by
  cases hp : PLAN_LIMITS plan with
  | none =>
    rw [upload_invalidPlan_eq db plan parts now fa hp]
    refine ⟨by simp, by simp, by simp [Admit, hp], fun _ => rfl, rfl, rfl, rfl⟩
  | some limit =>
    by_cases hq : totalSize parts > limit
    · rw [upload_quota_eq db plan parts now fa limit hp hq]
      refine ⟨by simp, ?_, ?_, fun _ => rfl, rfl, rfl, rfl⟩
      · simp only [true_iff]
        exact ⟨limit, rfl, hq⟩
      · simp [Admit, hp]
        omega
    · obtain ⟨h1, h2⟩ :=
        upload_admitted_not_rejected db plan parts now fa limit hp hq
      have hle : totalSize parts ≤ limit := Nat.not_lt.mp hq
      refine ⟨?_, ?_, ?_, ?_, rfl, rfl, rfl⟩
      · exact iff_of_false h1 (by simp)
      · refine iff_of_false h2 ?_
        rintro ⟨l, hl, hgt⟩
        injection hl with hl
        omega
      · refine iff_of_false ?_ ?_
        · simp [Admit, hp, hle]
        · rintro (hc | hc)
          · exact h1 hc
          · exact h2 hc
      · rintro (hc | hc)
        · exact absurd hc h1
        · exact absurd hc h2

/-- Witness for C3 at an unrecognized tier. -/
theorem admit_rejects_exactly_witness :
    (upload DB.empty "bogus" [] 0 none).2 = .invalidPlan ↔
      PLAN_LIMITS "bogus" = none :=
  (admit_rejects_exactly DB.empty "bogus" [] 0 none).1

/-- **C6 counterexample** An upload request with no file parts is *not*
rejected: `upload_files` answers 200 success and commits a `Transfer` row
with `file_count = 0` and `total_size = 0`.  There is no empty-batch check
anywhere in `upload_files`. -/
theorem emptyBatch_accepted_counterexample :
    (upload DB.empty "free" [] 0 none).2 = .ok 0 [] RETENTION_SECONDS ∧
    (upload DB.empty "free" [] 0 none).1.transfers =
      [{ id := 0, plan_type := "free", total_size := 0, file_count := 0,
         created_at := 0, expires_at := RETENTION_SECONDS,
         download_count := 0 }] := by decide

/-- **C6 amended** An upload with no file parts under any recognized tier is
accepted: it returns success and commits exactly one `Transfer` row with
`file_count = 0` and `total_size = 0` (and stages no `File` row and writes
no blob). -/
theorem emptyBatch_accepted (db : DB) (plan : String) (now : Nat)
    (limit : Nat) (hp : PLAN_LIMITS plan = some limit) :
    upload db plan [] now none =
      ({ transfers := db.transfers ++
           [{ id := db.uuidCounter, plan_type := plan, total_size := 0,
              file_count := 0, created_at := now,
              expires_at := now + RETENTION_SECONDS, download_count := 0 }],
         files := db.files, blobs := db.blobs,
         uuidCounter := db.uuidCounter + 1 },
       .ok db.uuidCounter [] (now + RETENTION_SECONDS)) := by
  unfold upload
  rw [hp]
  simp [totalSize, processParts]

/-- Witness for C6-amended on the empty store. -/
theorem emptyBatch_accepted_witness :
    upload DB.empty "free" [] 0 none =
      ({ transfers := [{ id := 0, plan_type := "free", total_size := 0,
                         file_count := 0, created_at := 0,
                         expires_at := 864000, download_count := 0 }],
         files := [], blobs := [], uuidCounter := 1 },
       .ok 0 [] 864000) :=
  emptyBatch_accepted DB.empty "free" 0 107374182400 (by decide)

/-- **C10** The 2 GiB `MAX_CONTENT_LENGTH` request cap is below every tier
limit (smallest: free, 100 GiB), so a single upload request whose payload
passed the cap can never trigger the quota rejection, whatever the tier. -/
theorem http_cap_below_quota (db : DB) (plan : String) (parts : List FilePart)
    (now : Nat) (fa : Option Nat)
    (hcap : totalSize parts ≤ MAX_CONTENT_LENGTH) :
    (upload db plan parts now fa).2 ≠ .quotaExceeded := by
  cases hp : PLAN_LIMITS plan with
  | none => rw [upload_invalidPlan_eq db plan parts now fa hp]; simp
  | some limit =>
    have hlim : MAX_CONTENT_LENGTH ≤ limit := PLAN_LIMITS_lower plan limit hp
    have hle : totalSize parts ≤ limit := le_trans hcap hlim
    exact (upload_admitted_not_rejected db plan parts now fa limit hp
      (Nat.not_lt.mpr hle)).2

/-- Witness for C10: a one-byte upload under the free tier. -/
theorem http_cap_below_quota_witness :
    (upload DB.empty "free" [⟨"a", [1]⟩] 0 none).2 ≠ .quotaExceeded :=
  http_cap_below_quota DB.empty "free" [⟨"a", [1]⟩] 0 none (by decide)

/-- **C2 counterexample** A file part with an empty filename (an empty file
input submitted by a browser) contributes its bytes to `total_size` and its
slot to `file_count` (lines 76-79 and 89 range over *all* parts) but creates
no `File` row (line 96 skips it).  The upload below is accepted, yet the
committed `Transfer` has `total_size = 4` while its `File` rows sum to `1`,
and `file_count = 2` while only one `File` row exists. -/
theorem totalSize_mismatch_counterexample :
    (upload DB.empty "free" [⟨"", [0, 0, 0]⟩, ⟨"a", [7]⟩] 0 none).2 =
      .ok 0 [(2, "a", 1)] 864000 ∧
    (upload DB.empty "free" [⟨"", [0, 0, 0]⟩, ⟨"a", [7]⟩] 0 none).1.transfers.map
      (fun t => (t.total_size, t.file_count)) = [(4, 2)] ∧
    (upload DB.empty "free" [⟨"", [0, 0, 0]⟩, ⟨"a", [7]⟩] 0 none).1.files.map
      (fun f => (f.transfer_id, f.file_size)) = [(0, 1)] := by decide

/-- **C2 amended** For every accepted upload *whose parts all carry a
non-empty display name*, the committed `Transfer`'s `total_size` equals the
sum of the sizes of its `File` rows and its `file_count` equals the number
of its `File` rows. -/
theorem totalSize_invariant (db : DB) (plan : String) (parts : List FilePart)
    (now : Nat) (db' : DB) (tid : Nat) (fs : List (Nat × String × Nat))
    (exp : Nat)
    (hfresh : ∀ f ∈ db.files, f.transfer_id < db.uuidCounter)
    (hnames : ∀ p ∈ parts, p.filename ≠ "")
    (h : upload db plan parts now none = (db', .ok tid fs exp)) :
    ∃ t ∈ db'.transfers, t.id = tid ∧
      ((db'.files.filter (fun f => f.transfer_id = tid)).map
        (fun f => f.file_size)).sum = t.total_size ∧
      (db'.files.filter (fun f => f.transfer_id = tid)).length =
        t.file_count := by
  obtain ⟨limit, recs, blobs, c', hp, hq, htid, hpp, hdb, hexp, hfs⟩ :=
    upload_ok_inv db plan parts now none db' tid fs exp h
  subst htid
  subst hdb
  have hall : ∀ r ∈ recs, r.transfer_id = db.uuidCounter := fun r hr =>
    ((processParts_ok_spec db.uuidCounter parts (db.uuidCounter + 1) 0 none
      recs blobs c' hpp).1 r hr).1
  have hold : db.files.filter (fun f => f.transfer_id = db.uuidCounter) = [] := by
    rw [List.filter_eq_nil_iff]
    intro f hf
    have := hfresh f hf
    simp only [decide_eq_true_eq]
    omega
  have hnew : recs.filter (fun f => f.transfer_id = db.uuidCounter) = recs := by
    rw [List.filter_eq_self]
    intro r hr
    simp [hall r hr]
  have hsizes := processParts_ok_sizes db.uuidCounter parts (db.uuidCounter + 1)
    0 none recs blobs c' hpp hnames
  refine ⟨_, List.mem_append_right _ (List.mem_singleton.mpr rfl), rfl, ?_, ?_⟩
  · simp only [List.filter_append, hold, hnew, List.nil_append]
    rw [hsizes]
    rfl
  · simp only [List.filter_append, hold, hnew, List.nil_append]
    have := congrArg List.length hsizes
    simpa using this

/-- Witness for C2-amended: two named parts of 1 and 2 bytes. -/
theorem totalSize_invariant_witness :
    ∃ t ∈ (upload DB.empty "free" [⟨"a", [7]⟩, ⟨"b", [1, 2]⟩] 0 none).1.transfers,
      t.id = 0 ∧
      (((upload DB.empty "free" [⟨"a", [7]⟩, ⟨"b", [1, 2]⟩] 0 none).1.files.filter
        (fun f => f.transfer_id = 0)).map (fun f => f.file_size)).sum =
        t.total_size ∧
      ((upload DB.empty "free" [⟨"a", [7]⟩, ⟨"b", [1, 2]⟩] 0 none).1.files.filter
        (fun f => f.transfer_id = 0)).length = t.file_count :=
  totalSize_invariant DB.empty "free" [⟨"a", [7]⟩, ⟨"b", [1, 2]⟩] 0
    (upload DB.empty "free" [⟨"a", [7]⟩, ⟨"b", [1, 2]⟩] 0 none).1 0
    [(2, "a", 1), (4, "b", 2)] 864000 (by decide) (by decide) (by decide)

/-- **C4 (code bug)** The attacker-controllable display name *is* used as
part of the raw filesystem path: line 99 concatenates it verbatim after the
uuid prefix, and line 100 joins that key onto the upload directory.  For the
display name `"../../etc/passwd"` the resulting path contains the raw name,
and its slash-separated components contain `".."` — a traversal step — so
the storage key is not decoupled from the display name (two equal uuid draws
with different display names give different keys). -/
theorem display_name_used_in_path :
    file_path_of (storage_key 0 "../../etc/passwd") =
      "uploads/" ++ uuidStr 0 ++ "_" ++ "../../etc/passwd" ∧
    (pathComponents (file_path_of (storage_key 0 "../../etc/passwd"))).contains
      ".." = true ∧
    storage_key 0 "a" ≠ storage_key 0 "b" := by decide

/-- **C5 counterexample** A transfer with zero `File` rows is reachable (one
empty-named part); calling `download_transfer` on it answers the NoFiles 404
— and still increments and commits `download_count`, because the increment
at lines 167-168 runs before the `transfer.files` check at line 170.  The
claim says a NoFiles call leaves the counter unchanged; here it moves 0 → 1. -/
theorem noFiles_increments_counterexample :
    (download_transfer (upload DB.empty "free" [⟨"", []⟩] 0 none).1 0 5).2 =
      .noFiles ∧
    (download_transfer (upload DB.empty "free" [⟨"", []⟩] 0 none).1 0
      5).1.transfers.map (fun t => t.download_count) = [1] := by decide

/-- **C5 amended** Per `download_transfer` call: a NotFound or Expired
outcome leaves the state exactly unchanged; a call that finds an unexpired
transfer commits the `download_count` increment for that transfer whether it
then returns the file (success) or the NoFiles 404 — the result is NoFiles
exactly when the transfer has no `File` rows.  (`get_transfer_info` takes no
state to a new state at all: its type is read-only.) -/
theorem download_count_per_call (db : DB) (tid now : Nat) :
    (db.transfers.find? (fun u => u.id = tid) = none →
      download_transfer db tid now = (db, .notFound)) ∧
    (∀ t, db.transfers.find? (fun u => u.id = tid) = some t →
      (now > t.expires_at → download_transfer db tid now = (db, .expired)) ∧
      (¬ now > t.expires_at →
        (download_transfer db tid now).1 =
          { db with transfers := db.transfers.map (bumpIf tid) } ∧
        ((download_transfer db tid now).2 = .noFiles ↔
          db.files.filter (fun f => f.transfer_id = tid) = []))) := by
  constructor
  · intro hnone
    unfold download_transfer
    rw [hnone]
  · intro t hfind
    constructor
    · intro hexp
      unfold download_transfer
      rw [hfind]
      simp only
      rw [if_pos hexp]
    · intro hexp
      refine ⟨download_found_state db tid now t hfind hexp, ?_⟩
      unfold download_transfer
      rw [hfind]
      simp only
      rw [if_neg hexp]
      cases hfil : db.files.filter (fun f => f.transfer_id = tid) with
      | nil => simp
      | cons f rest => simp

/-- Witness for C5-amended: a NotFound call on the empty store. -/
theorem download_count_per_call_witness :
    download_transfer DB.empty 0 0 = (DB.empty, .notFound) :=
  (download_count_per_call DB.empty 0 0).1 (by decide)

theorem download_state_fields (db : DB) (tid now : Nat) :
    (download_transfer db tid now).1.files = db.files ∧
    (download_transfer db tid now).1.blobs = db.blobs ∧
    (download_transfer db tid now).1.uuidCounter = db.uuidCounter := by
  cases hfind : db.transfers.find? (fun u => u.id = tid) with
  | none =>
    unfold download_transfer
    rw [hfind]
    exact ⟨rfl, rfl, rfl⟩
  | some t =>
    by_cases hexp : now > t.expires_at
    · unfold download_transfer
      rw [hfind]
      simp only
      rw [if_pos hexp]
      exact ⟨rfl, rfl, rfl⟩
    · rw [download_found_state db tid now t hfind hexp]
      exact ⟨rfl, rfl, rfl⟩

/-- Every `Transfer` row survives every `download_transfer` call, with its
identity, creation and expiry fields intact (only `download_count` can
move). -/
theorem download_preserves_transfers (db : DB) (tid now : Nat)
    (tr : TransferRec) (ht : tr ∈ db.transfers) :
    ∃ t' ∈ (download_transfer db tid now).1.transfers,
      t'.id = tr.id ∧ t'.expires_at = tr.expires_at ∧
      t'.created_at = tr.created_at := by
  cases hfind : db.transfers.find? (fun u => u.id = tid) with
  | none =>
    unfold download_transfer
    rw [hfind]
    exact ⟨tr, ht, rfl, rfl, rfl⟩
  | some u =>
    by_cases hexp : now > u.expires_at
    · unfold download_transfer
      rw [hfind]
      simp only
      rw [if_pos hexp]
      exact ⟨tr, ht, rfl, rfl, rfl⟩
    · rw [download_found_state db tid now u hfind hexp]
      exact ⟨bumpIf tid tr, List.mem_map_of_mem _ ht, bumpIf_id tid tr,
        bumpIf_expires_at tid tr, bumpIf_created_at tid tr⟩

/-- Logical expiry is enforced on both read routes. -/
theorem expired_reads (db : DB) (tid now : Nat) (u : TransferRec)
    (hfind : db.transfers.find? (fun v => v.id = tid) = some u)
    (hexp : now > u.expires_at) :
    get_transfer_info db tid now = .expired ∧
    download_transfer db tid now = (db, .expired) := by
  constructor
  · unfold get_transfer_info
    rw [hfind]
    simp only
    rw [if_pos hexp]
  · unfold download_transfer
    rw [hfind]
    simp only
    rw [if_pos hexp]

/-- **C7 amended** Each accepted file gets a storage key that embeds a fresh
per-file uuid draw — though that draw is *not* the `File` row's own
identifier, which is a second, separate draw (see the counterexample) — and
storage keys stay pairwise distinct across the whole store under every
upload and download, even when display names repeat. -/
theorem storage_keys_unique (db : DB) (plan : String) (parts : List FilePart)
    (now : Nat) (fa : Option Nat) (tid now2 : Nat) (hinv : KeyInv db) :
    KeyInv (upload db plan parts now fa).1 ∧
    KeyInv (download_transfer db tid now2).1 := by
  constructor
  · cases hp : PLAN_LIMITS plan with
    | none => rw [upload_invalidPlan_eq db plan parts now fa hp]; exact hinv
    | some limit =>
      by_cases hq : totalSize parts > limit
      · rw [upload_quota_eq db plan parts now fa limit hp hq]; exact hinv
      · unfold upload
        rw [hp]
        simp only
        rw [if_neg hq]
        obtain ⟨h1, h2⟩ := hinv
        cases hpp : processParts db.uuidCounter (db.uuidCounter + 1) 0 fa parts with
        | failed blobs c' =>
          dsimp only
          have hcle : db.uuidCounter + 1 ≤ c' := by
            have := processParts_counter_le db.uuidCounter parts
              (db.uuidCounter + 1) 0 fa
            rw [hpp] at this
            simpa [LoopOut.counter] using this
          refine ⟨?_, h2⟩
          intro f hf
          obtain ⟨fid, name, hlt, hkey⟩ := h1 f hf
          refine ⟨fid, name, ?_, hkey⟩
          show fid < c'
          omega
        | ok recs blobs c' =>
          dsimp only
          have hcle : db.uuidCounter + 1 ≤ c' := by
            have := processParts_counter_le db.uuidCounter parts
              (db.uuidCounter + 1) 0 fa
            rw [hpp] at this
            simpa [LoopOut.counter] using this
          obtain ⟨hspec, hnodup⟩ := processParts_ok_spec db.uuidCounter parts
            (db.uuidCounter + 1) 0 fa recs blobs c' hpp
          constructor
          · intro f hf
            rcases List.mem_append.mp hf with hfold | hfnew
            · obtain ⟨fid, name, hlt, hkey⟩ := h1 f hfold
              refine ⟨fid, name, ?_, hkey⟩
              show fid < c'
              omega
            · obtain ⟨-, fid, hge, hlt, hkey⟩ := hspec f hfnew
              exact ⟨fid, f.original_filename, hlt, hkey⟩
          · rw [List.map_append]
            refine List.Nodup.append h2 hnodup ?_
            intro k hkold hknew
            obtain ⟨f, hfold, hfk⟩ := List.mem_map.mp hkold
            obtain ⟨g, hgnew, hgk⟩ := List.mem_map.mp hknew
            obtain ⟨fid, name, hlt, hkey⟩ := h1 f hfold
            obtain ⟨-, gid, hge, -, hgkey⟩ := hspec g hgnew
            have hk2 : storage_key fid name = storage_key gid g.original_filename := by
              rw [← hkey, ← hgkey, hfk, hgk]
            have := storage_key_inj hk2
            omega
  · obtain ⟨hfl, -, hcn⟩ := download_state_fields db tid now2
    obtain ⟨h1, h2⟩ := hinv
    constructor
    · intro f hf
      rw [hfl] at hf
      rw [hcn]
      exact h1 f hf
    · rw [hfl]
      exact h2

/-- Witness for C7-amended starting from the empty store. -/
theorem storage_keys_unique_witness :
    KeyInv (upload DB.empty "free" [⟨"a", [1]⟩] 0 none).1 ∧
    KeyInv (download_transfer DB.empty 0 0).1 :=
  storage_keys_unique DB.empty "free" [⟨"a", [1]⟩] 0 none 0 0
    ⟨fun f hf => absurd hf (List.not_mem_nil f), List.nodup_nil⟩

/-- **C7 counterexample** The uuid embedded in the storage key (draw 1 of
the run) is *not* the `File` row's identifier: the row's primary key is a
separate draw (draw 2, the column default of line 46 firing at commit),
because line 97's `file_id` is never assigned to the `File` record.  So the
key does not embed "that same File identifier" as claimed. -/
theorem storage_key_not_record_id_counterexample :
    (upload DB.empty "free" [⟨"a", [1]⟩] 0 none).1.files.map
      (fun f => (f.id, f.filename)) = [(2, storage_key 1 "a")] ∧
    storage_key 2 "a" ≠ storage_key 1 "a" := by decide

/-- **C8 counterexample** There is no retention sweeper anywhere in the code:
no route deletes a `Transfer`, a `File`, or a blob.  Concretely, a transfer
whose expiry (864000) is one second in the past at `now = 864001` is still in
the metadata after each available operation runs — `get_transfer_info`
answers the logical 410, `download_transfer` leaves the state unchanged, and
a later upload keeps the expired row and its blob — contradicting "absent
from metadata after one sweep cycle". -/
theorem no_sweeper_counterexample :
    (upload DB.empty "free" [⟨"a", [7]⟩] 0 none).1.transfers.map
      (fun t => (t.id, t.expires_at)) = [(0, 864000)] ∧
    get_transfer_info (upload DB.empty "free" [⟨"a", [7]⟩] 0 none).1 0 864001 =
      .expired ∧
    (download_transfer (upload DB.empty "free" [⟨"a", [7]⟩] 0 none).1 0
      864001).1 = (upload DB.empty "free" [⟨"a", [7]⟩] 0 none).1 ∧
    (upload (upload DB.empty "free" [⟨"a", [7]⟩] 0 none).1 "free" [] 864001
      none).1.transfers.map (fun t => t.id) = [0, 3] ∧
    (upload (upload DB.empty "free" [⟨"a", [7]⟩] 0 none).1 "free" [] 864001
      none).1.blobs = [(file_path_of (storage_key 1 "a"), [7])] := by decide

/-- **C8 amended** No retention sweeper exists.  Expired transfers are never
physically reclaimed: every `Transfer` row survives every upload call and
(with identity, creation and expiry intact) every download call, and no blob
is ever removed; expiry is enforced only logically, both read routes
answering Expired once `now` passes `expires_at`. -/
theorem no_sweeper (db : DB) (plan : String) (parts : List FilePart)
    (now : Nat) (fa : Option Nat) (tid now2 : Nat) (tr : TransferRec)
    (ht : tr ∈ db.transfers) :
    tr ∈ (upload db plan parts now fa).1.transfers ∧
    (∃ t' ∈ (download_transfer db tid now2).1.transfers,
      t'.id = tr.id ∧ t'.expires_at = tr.expires_at ∧
      t'.created_at = tr.created_at) ∧
    (∀ b ∈ db.blobs, b ∈ (upload db plan parts now fa).1.blobs ∧
      b ∈ (download_transfer db tid now2).1.blobs) ∧
    (∀ u, db.transfers.find? (fun v => v.id = tid) = some u →
      now2 > u.expires_at →
      get_transfer_info db tid now2 = .expired ∧
      download_transfer db tid now2 = (db, .expired)) := by
  refine ⟨upload_preserves_transfers db plan parts now fa tr ht,
    download_preserves_transfers db tid now2 tr ht, ?_, ?_⟩
  · intro b hb
    exact ⟨upload_preserves_blobs db plan parts now fa b hb,
      (download_state_fields db tid now2).2.1 ▸ hb⟩
  · intro u hfind hexp
    exact expired_reads db tid now2 u hfind hexp

/-- Witness for C8-amended on a store holding one expired transfer. -/
theorem no_sweeper_witness :
    (⟨0, "free", 1, 1, 0, 864000, 0⟩ : TransferRec) ∈
      (upload (⟨[⟨0, "free", 1, 1, 0, 864000, 0⟩], [], [], 1⟩ : DB) "free" []
        864001 none).1.transfers :=
  (no_sweeper ⟨[⟨0, "free", 1, 1, 0, 864000, 0⟩], [], [], 1⟩ "free" [] 864001
    none 0 864001 ⟨0, "free", 1, 1, 0, 864000, 0⟩ (by decide)).1

/-- The increment in `download_transfer` is the composition of the two
halves `dlRead` (ORM load) and `dlWrite` (Python `+= 1` then commit): when
the found transfer is unexpired and every row sharing its key holds the same
count, one call's state change is exactly `dlWrite` of the `dlRead`
snapshot. -/
theorem download_is_read_modify_write (db : DB) (tid now : Nat)
    (t : TransferRec)
    (hfind : db.transfers.find? (fun u => u.id = tid) = some t)
    (hexp : ¬ now > t.expires_at)
    (huniq : ∀ u ∈ db.transfers, u.id = tid →
      u.download_count = t.download_count) :
    dlRead db tid = some t.download_count ∧
    (download_transfer db tid now).1 = dlWrite db tid t.download_count := by
  constructor
  · unfold dlRead
    rw [hfind]
    rfl
  · rw [download_found_state db tid now t hfind hexp]
    unfold dlWrite
    simp only [DB.mk.injEq, and_true, true_and]
    apply List.map_congr_left
    intro u hu
    unfold bumpIf
    by_cases hid : u.id = tid
    · rw [if_pos hid, if_pos hid, huniq u hu hid]
    · rw [if_neg hid, if_neg hid]

/-- **C9 counterexample** The increment is a read-modify-write pair, not an
atomic update, so interleaving two concurrent downloads of the same transfer
as read₁, read₂, write₁, write₂ loses one update: both reads see count 0 and
the final committed count is 1, not N = 2. -/
theorem lost_update_counterexample :
    dlRead (⟨[⟨0, "free", 1, 1, 0, 864000, 0⟩], [], [], 1⟩ : DB) 0 = some 0 ∧
    (dlWrite (dlWrite (⟨[⟨0, "free", 1, 1, 0, 864000, 0⟩], [], [], 1⟩ : DB)
        0 0) 0 0).transfers.map (fun t => t.download_count) = [1] ∧
    (1 : Nat) ≠ 2 := by decide

/-- **C9 amended** The increment is a separate read-modify-write pair
(`Transfer.query.get` loads, Python computes `+ 1`, `commit` writes back).
Fully sequential executions are correct — after `n` back-to-back successful
downloads of an unexpired transfer the stored count has grown by exactly
`n` — but the interleaved execution of the counterexample loses updates. -/
theorem sequential_download_counts (db : DB) (tid now : Nat)
    (t : TransferRec) (n : Nat)
    (hfind : db.transfers.find? (fun u => u.id = tid) = some t)
    (hexp : ¬ now > t.expires_at) :
    ∃ u, (iterDownload db tid now n).transfers.find? (fun v => v.id = tid) =
        some u ∧
      u.download_count = t.download_count + n ∧
      u.expires_at = t.expires_at := by
  induction n generalizing db t with
  | zero => exact ⟨t, hfind, rfl, rfl⟩
  | succ n ih =>
    have hstate := download_found_state db tid now t hfind hexp
    have hfind' : (download_transfer db tid now).1.transfers.find?
        (fun v => v.id = tid) = some (bumpIf tid t) := by
      rw [hstate]
      show (db.transfers.map (bumpIf tid)).find? (fun v => v.id = tid) = _
      rw [find?_map_bumpIf, hfind]
      rfl
    have hexp' : ¬ now > (bumpIf tid t).expires_at := by
      rw [bumpIf_expires_at]
      exact hexp
    obtain ⟨u, hu1, hu2, hu3⟩ :=
      ih (download_transfer db tid now).1 (bumpIf tid t) hfind' hexp'
    refine ⟨u, hu1, ?_, ?_⟩
    · rw [hu2]
      have htid : t.id = tid := by
        have := List.find?_some hfind
        simpa using this
      have hb : (bumpIf tid t).download_count = t.download_count + 1 := by
        unfold bumpIf
        rw [if_pos htid]
      omega
    · rw [hu3, bumpIf_expires_at]

/-- Witness for C9-amended: three sequential downloads move the count from
0 to 3. -/
theorem sequential_download_counts_witness :
    ∃ u, (iterDownload (⟨[⟨0, "free", 1, 1, 0, 864000, 0⟩], [], [], 1⟩ : DB)
        0 5 3).transfers.find? (fun v => v.id = 0) = some u ∧
      u.download_count = 0 + 3 ∧ u.expires_at = 864000 :=
  sequential_download_counts ⟨[⟨0, "free", 1, 1, 0, 864000, 0⟩], [], [], 1⟩
    0 5 ⟨0, "free", 1, 1, 0, 864000, 0⟩ 3 (by decide) (by decide)

end FlashTransfer
